import Mathlib

/-!
Verification of the hand-gesture rover-control pipeline (luk082/scripts).

The development shallowly embeds the gesture pipeline shared by
`gesturedrive.py`, `interfaces/gesture_interface.py` and `train.py`:

* the landmark normalizer `extract_landmarks` (three duplicated variants),
* the temporal smoother built on `collections.Counter.most_common`,
* the gesture-to-motor-command tables (`gesture_to_motor_command`),
* the per-frame pipeline controller (hand-present / no-hand branches,
  motor dispatch, cleanup on exit),
* `RoverConfig.validate` from `config.py`.

Real landmark coordinates are modelled with `ℝ`; `np.linalg.norm` of a
3-vector is the square root of the sum of squares.  Motor speeds are `Int`.
Labels are `String`.
-/

/-! ## Temporal smoother (`prediction_history` + `Counter.most_common`) -/

/-- `bestOf q l` scans `l` front-to-back and keeps the element whose
occurrence count in `q` is highest, preferring the earlier element on ties.
Applied with `l = q` this is exactly the value of Python's
`Counter(q).most_common(1)[0][0]`: the maximal count wins, and among
equally-frequent labels the one first inserted into the counter (i.e. the
one occurring first in `q`) wins, because `most_common` sorts stably. -/
def bestOf (q : List String) : List String → Option String
  | [] => none
  | x :: xs =>
    match bestOf q xs with
    | none => some x
    | some y => if q.count y > q.count x then some y else some x

/-- `Counter(q).most_common(1)[0][0]` (none on an empty queue). -/
def mostCommon (q : List String) : Option String := bestOf q q

/-- `prediction_history.append(prediction)` followed by
`if len(prediction_history) > history_length: prediction_history.pop(0)`. -/
def smoothPush (history_length : Nat) (hist : List String) (raw : String) : List String :=
  let h := hist ++ [raw]
  if history_length < h.length then h.drop 1 else h

/-- After the push, if the queue has reached the minimum length the smoothed
prediction replaces the raw one, otherwise the raw prediction stands
(`if len(prediction_history) >= 3: prediction = most_common ...`). -/
def smoothedLabel (min_len : Nat) (h : List String) (raw : String) : String :=
  if min_len ≤ h.length then (mostCommon h).getD raw else raw

/-- One smoothing step: push and evict, then majority vote. -/
def smoothStep (history_length min_len : Nat) (hist : List String) (raw : String) :
    List String × String :=
  let h := smoothPush history_length hist raw
  (h, smoothedLabel min_len h raw)

/-- Feed a whole raw-label sequence to a freshly reset smoother and return
the final queue and the last effective label. -/
def runSmoother (history_length min_len : Nat) (labels : List String) :
    List String × String :=
  labels.foldl (fun acc raw => smoothStep history_length min_len acc.1 raw) ([], "none")

/-! ## Gesture-to-command mappers

`gesturedrive.py` and `GestureInterface` carry different hard-coded tables;
both resolve a missing key to `(0, 0)` via `dict.get(gesture, (0, 0))`. -/

/-- The `gesture_map` literal inside `gesturedrive.gesture_to_motor_command`. -/
def gesture_map_drive : List (String × Int × Int) :=
  [("x+", (30, 30)), ("x-", (0, 0)), ("y+", (-10, 10)), ("y-", (10, -10)), ("n", (-30, -30))]

/-- `gesturedrive.gesture_to_motor_command`. -/
def gesture_to_motor_command (gesture : String) : Int × Int :=
  (List.lookup gesture gesture_map_drive).getD (0, 0)

/-- `GestureInterface.GESTURE_MAP` set in `__init__`. -/
def GESTURE_MAP_iface : List (String × Int × Int) :=
  [("x+", (30, 30)), ("x-", (-20, -20)), ("y+", (5, 10)), ("y-", (10, 5)), ("n", (0, 0))]

/-- `GestureInterface.gesture_to_motor_command`. -/
def ifaceGestureToMotorCommand (gesture : String) : Int × Int :=
  (List.lookup gesture GESTURE_MAP_iface).getD (0, 0)

/-! ## Landmark normalizer -/

/-- One MediaPipe landmark: a 3-D point. -/
structure Pt where
  x : ℝ
  y : ℝ
  z : ℝ

/-- A detected hand: exactly 21 landmarks, wrist at index 0,
palm base (middle-finger MCP) at index 9, fingertips at {4,8,12,16,20}. -/
def HandLandmarkSet : Type := Fin 21 → Pt

/-- `np.linalg.norm(p - q)` for 3-vectors. -/
noncomputable def dist3 (p q : Pt) : ℝ :=
  Real.sqrt ((p.x - q.x) ^ 2 + (p.y - q.y) ^ 2 + (p.z - q.z) ^ 2)

/-- The `[lm.x, lm.y, lm.z]` triple of one landmark. -/
def ptCoords (p : Pt) : List ℝ := [p.x, p.y, p.z]

/-- Component-wise `p - q` (numpy broadcasting on a 3-vector). -/
def subPt (p q : Pt) : Pt := ⟨p.x - q.x, p.y - q.y, p.z - q.z⟩

/-- The stride-3 loop `for i in range(0, len(landmarks), 3):
normalized.extend(landmarks[i:i+3] - wrist)` over the flat 63-value list. -/
def subWrist3 (wx wy wz : ℝ) : List ℝ → List ℝ
  | x :: y :: z :: rest => (x - wx) :: (y - wy) :: (z - wz) :: subWrist3 wx wy wz rest
  | _ => []

/-- `FINGER_TIPS = [4, 8, 12, 16, 20]`. -/
def FINGER_TIPS : List (Fin 21) := [4, 8, 12, 16, 20]

/-- `palm_size = np.linalg.norm(landmarks[0] - landmarks[9])`. -/
noncomputable def palmSize (lms : HandLandmarkSet) : ℝ := dist3 (lms 0) (lms 9)

/-- `gesturedrive.extract_landmarks`: builds the flat 63-value list, subtracts
the wrist slice in a stride-3 loop, divides by `palm_size` when positive, and
appends the five fingertip-to-wrist distances under the same zero guard. -/
noncomputable def extract_landmarks (lms : HandLandmarkSet) : List ℝ :=
  let landmarks := (List.ofFn fun i => ptCoords (lms i)).flatten
  let wrist := lms 0
  let normalized := subWrist3 wrist.x wrist.y wrist.z landmarks
  let palm_size := dist3 (lms 0) (lms 9)
  let scaled := if 0 < palm_size then normalized.map (fun v => v / palm_size) else normalized
  scaled ++ FINGER_TIPS.map (fun tip_idx =>
    let d := dist3 (lms tip_idx) wrist
    if 0 < palm_size then d / palm_size else d)

/-- `GestureInterface.extract_landmarks`: the vectorized numpy variant —
`landmarks - wrist` broadcast over the 21 points, then `.flatten()`, then the
same palm-size division and fingertip distances. -/
noncomputable def ifaceExtractLandmarks (lms : HandLandmarkSet) : List ℝ :=
  let wrist := lms 0
  let normalized := (List.ofFn fun i => ptCoords (subPt (lms i) wrist)).flatten
  let palm_size := dist3 (lms 0) (lms 9)
  let scaled := if 0 < palm_size then normalized.map (fun v => v / palm_size) else normalized
  scaled ++ FINGER_TIPS.map (fun tip_idx =>
    let d := dist3 (lms tip_idx) wrist
    if 0 < palm_size then d / palm_size else d)

/-- `train.HandGestureRecognizer.extract_landmarks`: character-for-character
the same code as `gesturedrive.extract_landmarks`. -/
noncomputable def trainExtractLandmarks (lms : HandLandmarkSet) : List ℝ :=
  let landmarks := (List.ofFn fun i => ptCoords (lms i)).flatten
  let wrist := lms 0
  let normalized := subWrist3 wrist.x wrist.y wrist.z landmarks
  let palm_size := dist3 (lms 0) (lms 9)
  let scaled := if 0 < palm_size then normalized.map (fun v => v / palm_size) else normalized
  scaled ++ FINGER_TIPS.map (fun tip_idx =>
    let d := dist3 (lms tip_idx) wrist
    if 0 < palm_size then d / palm_size else d)

/-- The 63 wrist-relative coordinates with no palm-size division
(the spec's "unscaled wrist-relative values", landmark-major order). -/
noncomputable def wristRelative (lms : HandLandmarkSet) : List ℝ :=
  (List.ofFn fun i => ptCoords (subPt (lms i) (lms 0))).flatten

/-- The five fingertip-to-wrist Euclidean distances, undivided. -/
noncomputable def rawTipDistances (lms : HandLandmarkSet) : List ℝ :=
  FINGER_TIPS.map fun tip_idx => dist3 (lms tip_idx) (lms 0)

/-- Translate every landmark by the constant vector `t`. -/
def translatePt (t p : Pt) : Pt := ⟨p.x + t.x, p.y + t.y, p.z + t.z⟩

/-- Translate the whole hand by `t`. -/
def translateLms (t : Pt) (lms : HandLandmarkSet) : HandLandmarkSet :=
  fun i => translatePt t (lms i)

/-- Scale a point about the wrist `w` by the factor `s`. -/
def scalePt (s : ℝ) (w p : Pt) : Pt :=
  ⟨w.x + s * (p.x - w.x), w.y + s * (p.y - w.y), w.z + s * (p.z - w.z)⟩

/-- Uniformly scale all landmark coordinates about the wrist by `s`. -/
def scaleAboutWrist (s : ℝ) (lms : HandLandmarkSet) : HandLandmarkSet :=
  fun i => scalePt s (lms 0) (lms i)

/-! ## Frame pipeline controller -/

/-- What one hand-present frame brings in from the external collaborators:
the classifier's raw predicted label for this frame's features, and the
pixel position of landmark 9 (used only by the interface's model-less
fallback heuristic). -/
structure HandObs where
  rawLabel : String
  cx : Int
  cy : Int
deriving DecidableEq

/-- The per-frame mutable state the pipeline carries across frames. -/
structure PipeState where
  history : List String
  current_gesture : String
deriving DecidableEq

/-- One iteration of the `gesturedrive.py` main loop, gesture part:
hand present ⇒ smooth (k = 5, minimum 3) and map; no hand ⇒ clear the
history, force the `no hand` sentinel, and leave the motor command at its
per-iteration initialization `(0, 0)`. -/
def frameStepDrive (det : Option HandObs) (st : PipeState) : PipeState × Int × Int :=
  match det with
  | some obs =>
    let r := smoothStep 5 3 st.history obs.rawLabel
    (⟨r.1, r.2⟩, gesture_to_motor_command r.2)
  | none => (⟨[], "no hand"⟩, (0, 0))

/-- `cx`/`cy` fallback classifier of `GestureInterface.run` used when the
model failed to load: thresholds against the frame center (640×480). -/
def fallbackGesture (w h cx cy : Int) : String :=
  let center_x := w / 2
  let center_y := h / 2
  if cy < center_y - 50 then "x+"
  else if cy > center_y + 50 then "x-"
  else if cx < center_x - 50 then "y-"
  else if cx > center_x + 50 then "y+"
  else "n"

/-- One iteration of `GestureInterface.run`, gesture part: with a loaded
model, smooth (k = 2, minimum 2); without one, the positional heuristic
(which does not touch the history); no hand ⇒ clear history and force the
sentinel.  The motor command is always looked up from `GESTURE_MAP`. -/
def frameStepIface (hasModel : Bool) (det : Option HandObs) (st : PipeState) :
    PipeState × Int × Int :=
  match det with
  | some obs =>
    if hasModel then
      let r := smoothStep 2 2 st.history obs.rawLabel
      (⟨r.1, r.2⟩, ifaceGestureToMotorCommand r.2)
    else
      let g := fallbackGesture 640 480 obs.cx obs.cy
      (⟨st.history, g⟩, ifaceGestureToMotorCommand g)
  | none => (⟨[], "no hand"⟩, ifaceGestureToMotorCommand "no hand")

/-- One frame's external circumstances: the detection result, whether the
motor sink raises on this frame's dispatch, and whether the quit key is
seen at the end of the iteration. -/
structure FrameEv where
  det : Option HandObs
  sinkFail : Bool
  quitKey : Bool
deriving DecidableEq

/-- The events driving one run of the loop: ordinary frames, a frame-read
failure (`ret == False` ⇒ `break` before any dispatch), or a keyboard
interrupt delivered at the top of an iteration. -/
inductive PipeEvent where
  | frame (ev : FrameEv)
  | readFail
  | interrupt
deriving DecidableEq

/-- Externally visible pipeline actions, in program order. `motorFail`
records a dispatch attempt on which the motor sink raised. -/
inductive PipeAction where
  | motor (l r : Int)
  | motorFail (l r : Int)
  | releaseCapture
deriving DecidableEq

/-- The `gesturedrive.py` frame loop.  `Motors.write` is NOT wrapped in a
`try`, so a sink failure propagates out of the loop (only
`KeyboardInterrupt` is caught around it); the quit key ends the loop after
the current frame's dispatch. -/
def runLoopDrive : List PipeEvent → PipeState → List PipeAction
  | [], _ => []
  | PipeEvent.readFail :: _, _ => []
  | PipeEvent.interrupt :: _, _ => []
  | PipeEvent.frame ev :: rest, st =>
    let r := frameStepDrive ev.det st
    if ev.sinkFail then [PipeAction.motorFail r.2.1 r.2.2]
    else PipeAction.motor r.2.1 r.2.2 ::
      (if ev.quitKey then [] else runLoopDrive rest r.1)

/-- `gesturedrive.py` whole run after a successful model load: the loop,
then the `finally` block — `cap.release()` first, `Motors.write(0, 0)`
after it (the final write sits in its own `try`, modelled as succeeding). -/
def runPipelineDrive (events : List PipeEvent) : List PipeAction :=
  runLoopDrive events ⟨[], "none"⟩ ++ [PipeAction.releaseCapture, PipeAction.motor 0 0]

/-- `gesturedrive.py` startup: a missing or corrupt `gesture_model.pkl`
hits the `except` branch which calls `sys.exit(1)` — no loop, no actions. -/
def drivePipeline (artifact : Option Unit) (events : List PipeEvent) :
    Option (List PipeAction) :=
  match artifact with
  | none => none
  | some _ => some (runPipelineDrive events)

/-- The `GestureInterface.run` frame loop: the dispatch is wrapped in
`try/except`, so a sink failure is logged and the loop continues. -/
def runLoopIface (hasModel : Bool) : List PipeEvent → PipeState → List PipeAction
  | [], _ => []
  | PipeEvent.readFail :: _, _ => []
  | PipeEvent.interrupt :: _, _ => []
  | PipeEvent.frame ev :: rest, st =>
    let r := frameStepIface hasModel ev.det st
    (if ev.sinkFail then PipeAction.motorFail r.2.1 r.2.2 else PipeAction.motor r.2.1 r.2.2) ::
      (if ev.quitKey then [] else runLoopIface hasModel rest r.1)

/-- `GestureInterface.run` plus `cleanup`: `cap.release()` first, then
`set_motor_speeds(0, 0)` (in its own `try`, modelled as succeeding). -/
def runPipelineIface (hasModel : Bool) (events : List PipeEvent) : List PipeAction :=
  runLoopIface hasModel events ⟨[], "none"⟩ ++ [PipeAction.releaseCapture, PipeAction.motor 0 0]

/-- `GestureInterface.load_model`: a failed load falls back to
`self.model = None` and the run proceeds; it never aborts. -/
def ifaceLoadModel (artifact : Option Unit) : Bool := artifact.isSome

/-- Whole `GestureInterface` lifetime: load (never fatal), run, cleanup. -/
def ifacePipeline (artifact : Option Unit) (events : List PipeEvent) : List PipeAction :=
  runPipelineIface (ifaceLoadModel artifact) events

/-- The claim's exit property as stated: somewhere in the trace a zero
motor command is issued strictly before the image source is released. -/
def zeroIssuedBeforeRelease (tr : List PipeAction) : Prop :=
  ∃ i : Fin tr.length, ∃ j : Fin tr.length,
    (i : Nat) < (j : Nat) ∧ tr.get i = PipeAction.motor 0 0 ∧ tr.get j = PipeAction.releaseCapture

/-- Erase the success/failure marking of dispatch attempts, keeping the
attempted command: used to compare traces modulo sink behaviour. -/
def forgetFail : PipeAction → PipeAction
  | PipeAction.motorFail l r => PipeAction.motor l r
  | a => a

/-- The same event with a healthy motor sink. -/
def clearSinkFail : PipeEvent → PipeEvent
  | PipeEvent.frame ev => PipeEvent.frame { ev with sinkFail := false }
  | e => e

/-- All 21 landmarks at the origin. -/
def zeroHand : HandLandmarkSet := fun _ => ⟨0, 0, 0⟩

/-- Wrist and palm base coincide (palm size 0) but landmark 1 is away
from the wrist. -/
def degenerateHand : HandLandmarkSet := fun i => if i = 1 then ⟨1, 0, 0⟩ else ⟨0, 0, 0⟩

/-- Landmark 9 at unit distance from the wrist: palm size exactly 1. -/
def unitPalmHand : HandLandmarkSet := fun i => if i = 9 then ⟨1, 0, 0⟩ else ⟨0, 0, 0⟩

/-! ## Configuration validation (`config.py`) -/

/-- The `RoverConfig` fields inspected by `RoverConfig.validate`. -/
structure RoverConfig where
  max_motor_speed : Int
  min_motor_speed : Int
  sensor_update_interval : ℚ
  camera_width : Int
  camera_height : Int
  gesture_confidence_threshold : ℚ
  battery_low_threshold : Int
deriving DecidableEq

/-- The dataclass defaults of `RoverConfig`. -/
def defaultRoverConfig : RoverConfig :=
  { max_motor_speed := 50
    min_motor_speed := -50
    sensor_update_interval := 1/2
    camera_width := 640
    camera_height := 480
    gesture_confidence_threshold := 7/10
    battery_low_threshold := 20 }

/-- `RoverConfig.validate`: accumulates error strings for the checks the
source performs and succeeds iff none fired.  Note that no check inspects
any gesture-to-command table. -/
def RoverConfig.validate (c : RoverConfig) : Bool × List String :=
  let errors : List String := []
  let errors := if c.max_motor_speed ≤ c.min_motor_speed then
      errors ++ ["max_motor_speed must be greater than min_motor_speed"] else errors
  let errors := if ¬ (0 ≤ c.max_motor_speed ∧ c.max_motor_speed ≤ 100) then
      errors ++ ["max_motor_speed should be between 0 and 100"] else errors
  let errors := if c.sensor_update_interval ≤ 0 then
      errors ++ ["sensor_update_interval must be positive"] else errors
  let errors := if c.camera_width ≤ 0 ∨ c.camera_height ≤ 0 then
      errors ++ ["Camera dimensions must be positive"] else errors
  let errors := if ¬ (0 ≤ c.gesture_confidence_threshold ∧ c.gesture_confidence_threshold ≤ 1) then
      errors ++ ["gesture_confidence_threshold must be between 0 and 1"] else errors
  let errors := if c.battery_low_threshold < 0 ∨ 100 < c.battery_low_threshold then
      errors ++ ["battery_low_threshold must be between 0 and 100"] else errors
  (errors.length == 0, errors)

/-! ## Theorems -/

/-- Helper: a label outside the five configured keys looks up to `none` in
the gesturedrive table. -/
theorem lookup_drive_eq_none (g : String) (h1 : g ≠ "x+") (h2 : g ≠ "x-")
    (h3 : g ≠ "y+") (h4 : g ≠ "y-") (h5 : g ≠ "n") :
    List.lookup g gesture_map_drive = none := by
  simp [gesture_map_drive, List.lookup, beq_eq_false_iff_ne.mpr h1,
    beq_eq_false_iff_ne.mpr h2, beq_eq_false_iff_ne.mpr h3,
    beq_eq_false_iff_ne.mpr h4, beq_eq_false_iff_ne.mpr h5]

/-- Helper: a label outside the five configured keys looks up to `none` in
the interface table. -/
theorem lookup_iface_eq_none (g : String) (h1 : g ≠ "x+") (h2 : g ≠ "x-")
    (h3 : g ≠ "y+") (h4 : g ≠ "y-") (h5 : g ≠ "n") :
    List.lookup g GESTURE_MAP_iface = none := by
  simp [GESTURE_MAP_iface, List.lookup, beq_eq_false_iff_ne.mpr h1,
    beq_eq_false_iff_ne.mpr h2, beq_eq_false_iff_ne.mpr h3,
    beq_eq_false_iff_ne.mpr h4, beq_eq_false_iff_ne.mpr h5]

/-- C6: any label that is not a key of the configured gesture map — the
`no hand` sentinel and arbitrary unknown labels included — maps to the zero
command `(0, 0)` in both pipelines, and any label whose command differs
from `(0, 0)` is one of the five configured keys. -/
theorem c6_unknown_labels_map_to_zero (g : String)
    (h : g ∉ ["x+", "x-", "y+", "y-", "n"]) :
    gesture_to_motor_command g = (0, 0) ∧ ifaceGestureToMotorCommand g = (0, 0) ∧
    gesture_to_motor_command "no hand" = (0, 0) ∧
    ifaceGestureToMotorCommand "no hand" = (0, 0) ∧
    gesture_to_motor_command "unknown" = (0, 0) ∧
    ifaceGestureToMotorCommand "unknown" = (0, 0) ∧
    (∀ g2 : String, gesture_to_motor_command g2 ≠ (0, 0) →
      g2 ∈ ["x+", "x-", "y+", "y-", "n"]) ∧
    (∀ g2 : String, ifaceGestureToMotorCommand g2 ≠ (0, 0) →
      g2 ∈ ["x+", "x-", "y+", "y-", "n"]) := by
  simp only [List.mem_cons, List.not_mem_nil, or_false, not_or] at h
  obtain ⟨h1, h2, h3, h4, h5⟩ := h
  refine ⟨?_, ?_, by decide, by decide, by decide, by decide, ?_, ?_⟩
  · simp [gesture_to_motor_command, lookup_drive_eq_none g h1 h2 h3 h4 h5]
  · simp [ifaceGestureToMotorCommand, lookup_iface_eq_none g h1 h2 h3 h4 h5]
  · intro g2 hne
    by_contra hmem
    simp only [List.mem_cons, List.not_mem_nil, or_false, not_or] at hmem
    obtain ⟨k1, k2, k3, k4, k5⟩ := hmem
    exact hne (by simp [gesture_to_motor_command, lookup_drive_eq_none g2 k1 k2 k3 k4 k5])
  · intro g2 hne
    by_contra hmem
    simp only [List.mem_cons, List.not_mem_nil, or_false, not_or] at hmem
    obtain ⟨k1, k2, k3, k4, k5⟩ := hmem
    exact hne (by simp [ifaceGestureToMotorCommand, lookup_iface_eq_none g2 k1 k2 k3 k4 k5])

/-- Witness for C6 at the concrete unknown label `"foo"`. -/
theorem c6_unknown_labels_map_to_zero_witness :
    "foo" ∉ ["x+", "x-", "y+", "y-", "n"] ∧
    gesture_to_motor_command "foo" = (0, 0) :=
  ⟨by decide, (c6_unknown_labels_map_to_zero "foo" (by decide)).1⟩

/-- Helper: the drive mapper only ever returns one of its five table values
or the `(0, 0)` default. -/
theorem gtmc_drive_mem (g : String) :
    gesture_to_motor_command g ∈
      [((30:Int), (30:Int)), (0, 0), (-10, 10), (10, -10), (-30, -30)] := by
  by_cases h1 : g = "x+"
  · subst h1; decide
  by_cases h2 : g = "x-"
  · subst h2; decide
  by_cases h3 : g = "y+"
  · subst h3; decide
  by_cases h4 : g = "y-"
  · subst h4; decide
  by_cases h5 : g = "n"
  · subst h5; decide
  simp [gesture_to_motor_command, lookup_drive_eq_none g h1 h2 h3 h4 h5]

/-- Helper: the interface mapper only ever returns one of its five table
values or the `(0, 0)` default. -/
theorem gtmc_iface_mem (g : String) :
    ifaceGestureToMotorCommand g ∈
      [((30:Int), (30:Int)), (-20, -20), (5, 10), (10, 5), (0, 0)] := by
  by_cases h1 : g = "x+"
  · subst h1; decide
  by_cases h2 : g = "x-"
  · subst h2; decide
  by_cases h3 : g = "y+"
  · subst h3; decide
  by_cases h4 : g = "y-"
  · subst h4; decide
  by_cases h5 : g = "n"
  · subst h5; decide
  simp [ifaceGestureToMotorCommand, lookup_iface_eq_none g h1 h2 h3 h4 h5]

/-- C9 counterexample: `RoverConfig.validate` accepts a configuration whose
motor speed bounds are `(-5, 5)`, yet the interface mapper still produces
`(30, 30)` for `"x+"` — the gesture table is never validated against the
configured bounds, so the claimed load-time rejection does not exist. -/
theorem c9_counterexample :
    (RoverConfig.validate
      { defaultRoverConfig with max_motor_speed := 5, min_motor_speed := -5 }).1 = true ∧
    ifaceGestureToMotorCommand "x+" = (30, 30) ∧
    ¬ ((30 : Int) ≤ 5) := by
  refine ⟨by norm_num [RoverConfig.validate, defaultRoverConfig], by decide, by decide⟩

/-- C9 amended: no load-time validation of the gesture table exists
(`RoverConfig.validate` never inspects it), but with the DEFAULT motor
bounds `(-50, 50)` every command either mapper can produce does lie within
bounds, and the default configuration itself validates. -/
theorem c9_default_bounds_hold (g : String) :
    (RoverConfig.validate defaultRoverConfig).1 = true ∧
    (-50 ≤ (gesture_to_motor_command g).1 ∧ (gesture_to_motor_command g).1 ≤ 50 ∧
      -50 ≤ (gesture_to_motor_command g).2 ∧ (gesture_to_motor_command g).2 ≤ 50) ∧
    (-50 ≤ (ifaceGestureToMotorCommand g).1 ∧ (ifaceGestureToMotorCommand g).1 ≤ 50 ∧
      -50 ≤ (ifaceGestureToMotorCommand g).2 ∧ (ifaceGestureToMotorCommand g).2 ≤ 50) := by
  refine ⟨by norm_num [RoverConfig.validate, defaultRoverConfig], ?_, ?_⟩
  · have h := gtmc_drive_mem g
    simp only [List.mem_cons, List.not_mem_nil, or_false] at h
    rcases h with h | h | h | h | h <;> rw [h] <;> norm_num
  · have h := gtmc_iface_mem g
    simp only [List.mem_cons, List.not_mem_nil, or_false] at h
    rcases h with h | h | h | h | h <;> rw [h] <;> norm_num

/-- Helper: a list ending in the two-element suffix `[a, b]` has `b` as its
last element and `a` just before it. -/
theorem ends_with_pair {α : Type} (l : List α) (a b : α) :
    ((l ++ [a, b]).getLast? = some b) ∧ ((l ++ [a, b]).dropLast.getLast? = some a) := by
  constructor
  · simp [List.getLast?_append]
  · have h : l ++ [a, b] = (l ++ [a]) ++ [b] := by simp
    rw [h, List.dropLast_concat, List.getLast?_append]
    simp

/-- C2 counterexample: in the code the `finally` block releases the image
source FIRST and writes the zero motor command AFTER it, so on a quit-key
exit no zero command is issued before the release, contradicting the
claimed order. -/
theorem c2_counterexample :
    ¬ zeroIssuedBeforeRelease (runPipelineDrive
      [PipeEvent.frame ⟨some ⟨"x+", 320, 240⟩, false, true⟩]) := by
  unfold zeroIssuedBeforeRelease
  decide

/-- C2 amended: on every exit from the frame loop (quit key, interrupt,
read failure, or exhaustion of the stream) both pipelines do issue one
final zero motor command, but it comes immediately AFTER releasing the
image source, not before. -/
theorem c2_final_zero_on_every_exit (events : List PipeEvent) (hasModel : Bool) :
    (runPipelineDrive events).getLast? = some (PipeAction.motor 0 0) ∧
    (runPipelineDrive events).dropLast.getLast? = some PipeAction.releaseCapture ∧
    (runPipelineIface hasModel events).getLast? = some (PipeAction.motor 0 0) ∧
    (runPipelineIface hasModel events).dropLast.getLast? = some PipeAction.releaseCapture := by
  refine ⟨(ends_with_pair _ _ _).1, (ends_with_pair _ _ _).2,
    (ends_with_pair _ _ _).1, (ends_with_pair _ _ _).2⟩

/-- C1: on a no-hand frame both pipelines clear the smoothing history,
force the `no hand` sentinel, and dispatch `(0, 0)` on that same frame;
the next hand-present frame is smoothed from a queue containing only the
post-reset label (its effective label is that raw label), independently of
whatever state preceded the reset.  The end-to-end scenario
`x+, x+, no-hand, x+` dispatches `(30,30), (30,30), (0,0), (30,30)`. -/
theorem c1_nohand_resets_smoother_and_stops (st st2 : PipeState) (obs : HandObs) :
    frameStepDrive none st = (⟨[], "no hand"⟩, (0, 0)) ∧
    frameStepIface true none st = (⟨[], "no hand"⟩, (0, 0)) ∧
    frameStepDrive (some obs) (frameStepDrive none st).1 =
      frameStepDrive (some obs) (frameStepDrive none st2).1 ∧
    (frameStepDrive (some obs) (frameStepDrive none st).1).1.history = [obs.rawLabel] ∧
    (frameStepDrive (some obs) (frameStepDrive none st).1).1.current_gesture = obs.rawLabel ∧
    (frameStepIface true (some obs) (frameStepIface true none st).1).1.history =
      [obs.rawLabel] ∧
    (frameStepIface true (some obs) (frameStepIface true none st).1).1.current_gesture =
      obs.rawLabel ∧
    runPipelineDrive
      [PipeEvent.frame ⟨some ⟨"x+", 0, 0⟩, false, false⟩,
       PipeEvent.frame ⟨some ⟨"x+", 0, 0⟩, false, false⟩,
       PipeEvent.frame ⟨none, false, false⟩,
       PipeEvent.frame ⟨some ⟨"x+", 0, 0⟩, false, false⟩] =
      [PipeAction.motor 30 30, PipeAction.motor 30 30, PipeAction.motor 0 0,
       PipeAction.motor 30 30, PipeAction.releaseCapture, PipeAction.motor 0 0] := by
  refine ⟨rfl, rfl, rfl, rfl, rfl, rfl, rfl, by decide⟩

/-- C7 counterexample: with a missing model artifact, `GestureInterface`
does NOT abort — `load_model` falls back to `model = None`, the frame loop
runs, the positional heuristic classifies a hand near the top of the frame
as `"x+"`, and the motor command `(30, 30)` is dispatched. -/
theorem c7_counterexample :
    ifacePipeline none [PipeEvent.frame ⟨some ⟨"", 320, 100⟩, false, false⟩] =
      [PipeAction.motor 30 30, PipeAction.releaseCapture, PipeAction.motor 0 0] ∧
    PipeAction.motor 30 30 ∈
      ifacePipeline none [PipeEvent.frame ⟨some ⟨"", 320, 100⟩, false, false⟩] := by
  refine ⟨by decide, by decide⟩

/-- C7 amended: in `gesturedrive.py` a missing or corrupt model artifact is
fatal at startup — the frame loop is never entered and no action (in
particular no motor command) is ever produced; a produced trace proves the
artifact loaded.  `GestureInterface` instead substitutes a heuristic
fallback and continues (see the counterexample). -/
theorem c7_drive_startup_fatal (events : List PipeEvent) :
    drivePipeline none events = none ∧
    (∀ (a : Option Unit) (tr : List PipeAction),
      drivePipeline a events = some tr → a = some ()) := by
  refine ⟨rfl, ?_⟩
  intro a tr h
  cases a with
  | none => exact absurd h (by simp [drivePipeline])
  | some u => rfl

/-- Witness for C7 at the empty event list and a present artifact. -/
theorem c7_drive_startup_fatal_witness :
    drivePipeline none [] = none ∧ (some () : Option Unit) = some () :=
  ⟨(c7_drive_startup_fatal []).1,
    (c7_drive_startup_fatal []).2 (some ()) (runPipelineDrive []) rfl⟩

/-- C8 counterexample: in `gesturedrive.py` the per-frame `Motors.write` is
not guarded, so a sink failure on frame 1 terminates the frame loop —
frame 2 is never processed (only the failed attempt appears before the
cleanup), contradicting the claimed log-and-continue behaviour. -/
theorem c8_counterexample :
    runPipelineDrive
      [PipeEvent.frame ⟨some ⟨"x+", 0, 0⟩, true, false⟩,
       PipeEvent.frame ⟨some ⟨"x+", 0, 0⟩, false, false⟩] =
      [PipeAction.motorFail 30 30, PipeAction.releaseCapture, PipeAction.motor 0 0] ∧
    ((runPipelineDrive
      [PipeEvent.frame ⟨some ⟨"x+", 0, 0⟩, true, false⟩,
       PipeEvent.frame ⟨some ⟨"x+", 0, 0⟩, false, false⟩]).takeWhile
        (fun a => !(a == PipeAction.releaseCapture))).length = 1 := by
  refine ⟨by decide, by decide⟩

/-- C8 amended: in `GestureInterface.run` the dispatch is wrapped in
`try/except`, so motor-sink failures change nothing but the
success/failure marking of the dispatch attempts: the loop visits the same
frames, computes the same commands, and never re-sends a failed command
(each processed frame contributes exactly one dispatch attempt). -/
theorem c8_iface_sink_failure_resilient (hasModel : Bool) (events : List PipeEvent)
    (st : PipeState) :
    (runLoopIface hasModel events st).map forgetFail =
      (runLoopIface hasModel (events.map clearSinkFail) st).map forgetFail := by
  induction events generalizing st with
  | nil => rfl
  | cons e rest ih =>
    cases e with
    | readFail => rfl
    | interrupt => rfl
    | frame ev =>
      simp only [List.map_cons, clearSinkFail, runLoopIface]
      cases hq : ev.quitKey <;> cases hs : ev.sinkFail <;>
        simp [forgetFail, hq, hs, ih]

/-- Helper: `bestOf` never returns `none` on a nonempty candidate list. -/
theorem bestOf_cons_ne_none (q : List String) (x : String) (xs : List String) :
    bestOf q (x :: xs) ≠ none := by
  unfold bestOf
  cases bestOf q xs with
  | none => simp
  | some y => by_cases h : q.count y > q.count x <;> simp [h]

/-- Helper: the winner is an element of the candidate list. -/
theorem bestOf_mem (q : List String) :
    ∀ (l : List String) (m : String), bestOf q l = some m → m ∈ l := by
  intro l
  induction l with
  | nil => intro m h; simp [bestOf] at h
  | cons x xs ih =>
    intro m h
    unfold bestOf at h
    split at h
    · simp at h
      simp [h]
    · next y hb =>
      split at h
      · simp at h
        exact List.mem_cons_of_mem x (ih m (h ▸ hb))
      · simp at h
        simp [h]

/-- Helper: the winner's occurrence count dominates every candidate's. -/
theorem bestOf_count_le (q : List String) :
    ∀ (l : List String) (m : String), bestOf q l = some m →
      ∀ y ∈ l, q.count y ≤ q.count m := by
  intro l
  induction l with
  | nil => intro m h; simp [bestOf] at h
  | cons x xs ih =>
    intro m h y hy
    unfold bestOf at h
    split at h
    · next hb =>
      simp at h
      subst h
      rcases List.mem_cons.mp hy with hyx | hyxs
      · exact le_of_eq (by rw [hyx])
      · cases xs with
        | nil => simp at hyxs
        | cons a as => exact absurd hb (bestOf_cons_ne_none q a as)
    · next w hb =>
      split at h
      · next hc =>
        simp at h
        subst h
        rcases List.mem_cons.mp hy with hyx | hyxs
        · exact le_of_lt (hyx ▸ hc)
        · exact ih w hb y hyxs
      · next hc =>
        simp at h
        subst h
        rcases List.mem_cons.mp hy with hyx | hyxs
        · exact le_of_eq (by rw [hyx])
        · exact le_trans (ih w hb y hyxs) (le_of_not_lt hc)

/-- Helper: among candidates of maximal count, the winner is the one whose
first occurrence in the candidate list comes first (the stable tie-break of
`Counter.most_common`). -/
theorem bestOf_tiebreak (q : List String) :
    ∀ (l : List String) (m : String), bestOf q l = some m →
      ∀ y ∈ l, q.count y = q.count m → l.indexOf m ≤ l.indexOf y := by
  intro l
  induction l with
  | nil => intro m h; simp [bestOf] at h
  | cons x xs ih =>
    intro m h y hy hcnt
    unfold bestOf at h
    split at h
    · simp at h
      subst h
      simp [List.indexOf_cons]
    · next w hb =>
      split at h
      · next hc =>
        simp at h
        subst h
        rcases List.mem_cons.mp hy with hyx | hyxs
        · exact absurd hcnt (by rw [hyx]; exact ne_of_lt hc)
        · by_cases hmx : x == w
          · simp [List.indexOf_cons, hmx]
          · have hyn : (x == y) = false := by
              apply beq_eq_false_iff_ne.mpr
              intro hxy
              rw [← hxy] at hcnt
              exact absurd (hcnt ▸ hc) (lt_irrefl _)
            have hmx2 : (x == w) = false := by simpa using hmx
            simp only [List.indexOf_cons, hmx2, hyn, cond_false]
            exact Nat.add_le_add_right (ih w hb y hyxs hcnt) 1
      · next hc =>
        simp at h
        subst h
        simp [List.indexOf_cons]

/-- Helper: the post-push queue is nonempty whenever the capacity is. -/
theorem smoothPush_ne_nil (history_length : Nat) (hist : List String) (raw : String)
    (hk : 0 < history_length) : smoothPush history_length hist raw ≠ [] := by
  unfold smoothPush
  by_cases hc : history_length < (hist ++ [raw]).length
  · rw [if_pos hc]
    apply List.ne_nil_of_length_pos
    simp only [List.length_drop, List.length_append, List.length_cons,
      List.length_nil] at hc ⊢
    omega
  · rw [if_neg hc]
    simp

/-- C3: once the post-push queue reaches the configured minimum length the
effective label is a queue member of maximal occurrence count, ties broken
by first occurrence front-to-back (the `Counter.most_common` tie-break);
below the minimum the raw label passes through.  Feeding `[a, a, b]` with
any capacity `k ≥ 3` (minimum 3, gesturedrive's setting) yields `a`;
feeding `[a, b]` with minimum 3 yields the latest raw label `b`. -/
theorem c3_smoother_majority (history_length min_len : Nat) (hist : List String)
    (raw : String) (hk : 0 < history_length) (h : List String) (eff : String)
    (hstep : smoothStep history_length min_len hist raw = (h, eff)) :
    (min_len ≤ h.length →
      eff ∈ h ∧
      (∀ y ∈ h, h.count y ≤ h.count eff) ∧
      (∀ y ∈ h, h.count y = h.count eff → h.indexOf eff ≤ h.indexOf y)) ∧
    (h.length < min_len → eff = raw) ∧
    (∀ k, 3 ≤ k → (runSmoother k 3 ["a", "a", "b"]).2 = "a") ∧
    (runSmoother 5 3 ["a", "b"]).2 = "b" := by
  have hh : h = smoothPush history_length hist raw := by
    have := congrArg Prod.fst hstep
    simpa [smoothStep] using this.symm
  have he : eff = smoothedLabel min_len h raw := by
    have := congrArg Prod.snd hstep
    simp only [smoothStep] at this
    rw [hh]
    exact this.symm
  refine ⟨?_, ?_, ?_, by decide⟩
  · intro hlen
    have hne : h ≠ [] := hh ▸ smoothPush_ne_nil history_length hist raw hk
    rw [he]
    unfold smoothedLabel
    rw [if_pos hlen]
    cases hq : h with
    | nil => exact absurd hq hne
    | cons x xs =>
      unfold mostCommon
      cases hb : bestOf (x :: xs) (x :: xs) with
      | none => exact absurd hb (bestOf_cons_ne_none _ x xs)
      | some m =>
        simp only [Option.getD_some]
        exact ⟨bestOf_mem _ _ m hb, bestOf_count_le _ _ m hb, bestOf_tiebreak _ _ m hb⟩
  · intro hlen
    rw [he]
    unfold smoothedLabel
    rw [if_neg (by omega)]
  · intro k hk3
    have e1 : smoothPush k [] "a" = ["a"] := by
      unfold smoothPush
      rw [if_neg (by simp; omega)]
      rfl
    have e2 : smoothPush k ["a"] "a" = ["a", "a"] := by
      unfold smoothPush
      rw [if_neg (by simp; omega)]
      rfl
    have e3 : smoothPush k ["a", "a"] "b" = ["a", "a", "b"] := by
      unfold smoothPush
      rw [if_neg (by simp; omega)]
      rfl
    simp only [runSmoother, List.foldl_cons, List.foldl_nil, smoothStep, e1, e2, e3]
    decide

/-- Witness for C3 with gesturedrive's configuration (capacity 5, minimum
3) on the queue state `["a", "a"]` receiving raw label `"b"`. -/
theorem c3_smoother_majority_witness :
    0 < 5 ∧ smoothStep 5 3 ["a", "a"] "b" = (["a", "a", "b"], "a") ∧
    (3 ≤ (3:Nat) ∧ ("a" : String) ∈ ["a", "a", "b"]) ∧
    (runSmoother 5 3 ["a", "b"]).2 = "b" :=
  ⟨by decide, by decide,
    ⟨by decide,
      ((c3_smoother_majority 5 3 ["a", "a"] "b" (by decide) ["a", "a", "b"] "a"
        (by decide)).1 (by decide)).1⟩,
    (c3_smoother_majority 5 3 ["a", "a"] "b" (by decide) ["a", "a", "b"] "a"
        (by decide)).2.2.2⟩

/-- Helper: one pass of the stride-3 wrist-subtraction loop over a
3-coordinate chunk. -/
theorem subWrist3_coords (w p : Pt) (rest : List ℝ) :
    subWrist3 w.x w.y w.z (ptCoords p ++ rest) =
      ptCoords (subPt p w) ++ subWrist3 w.x w.y w.z rest := rfl

/-- Helper: the stride-3 loop over a flattened list of 3-coordinate chunks
equals the point-wise subtraction flattened. -/
theorem subWrist3_flatten (w : Pt) (ps : List Pt) :
    subWrist3 w.x w.y w.z ((ps.map ptCoords).flatten) =
      (ps.map fun p => ptCoords (subPt p w)).flatten := by
  induction ps with
  | nil => rfl
  | cons p ps ih => simp only [List.map_cons, List.flatten_cons, subWrist3_coords, ih]

/-- Helper: mapping under `List.ofFn` commutes with mapping the list. -/
theorem ofFn_map_chunks (g : Fin 21 → Pt) (f : Pt → List ℝ) :
    (List.ofFn fun i => f (g i)) = (List.ofFn g).map f :=
  (List.map_ofFn g f).symm

/-- Helper: the loop-based (gesturedrive/train) normalizer and the
vectorized (interface) normalizer compute the same list. -/
theorem extract_eq_iface (lms : HandLandmarkSet) :
    extract_landmarks lms = ifaceExtractLandmarks lms := by
  simp only [extract_landmarks, ifaceExtractLandmarks]
  rw [ofFn_map_chunks lms ptCoords,
    ofFn_map_chunks lms (fun p => ptCoords (subPt p (lms 0))),
    subWrist3_flatten]

/-- Helper: `train.py`'s normalizer is the same code as gesturedrive's. -/
theorem extract_eq_train (lms : HandLandmarkSet) :
    trainExtractLandmarks lms = extract_landmarks lms := rfl

/-- Helper: flattening 21 three-coordinate chunks yields 63 values. -/
theorem flatten_coords_length (g : Fin 21 → Pt) :
    ((List.ofFn fun i => ptCoords (g i)).flatten).length = 63 := by
  rw [List.length_flatten, ofFn_map_chunks g ptCoords, List.map_map]
  have : (List.length ∘ ptCoords) = fun _ : Pt => 3 := by
    funext p
    simp [ptCoords]
  rw [this, List.map_ofFn, List.sum_ofFn]
  simp

/-- Helper: every extracted feature vector has exactly 68 entries. -/
theorem iface_extract_length (lms : HandLandmarkSet) :
    (ifaceExtractLandmarks lms).length = 68 := by
  unfold ifaceExtractLandmarks
  by_cases hp : 0 < dist3 (lms 0) (lms 9) <;>
    simp [hp, ptCoords, FINGER_TIPS]

/-- C10: the vectorized normalizer of `GestureInterface.extract_landmarks`
and the loop-based implementations in `gesturedrive.extract_landmarks` and
`train.HandGestureRecognizer.extract_landmarks` produce element-wise equal
68-value feature vectors on every 21-landmark input. -/
theorem c10_normalizers_equivalent (lms : HandLandmarkSet) :
    ifaceExtractLandmarks lms = extract_landmarks lms ∧
    trainExtractLandmarks lms = extract_landmarks lms ∧
    (extract_landmarks lms).length = 68 := by
  refine ⟨(extract_eq_iface lms).symm, extract_eq_train lms, ?_⟩
  rw [extract_eq_iface lms]
  exact iface_extract_length lms

/-- Helper: wrist subtraction cancels a common translation. -/
theorem subPt_translate (t p q : Pt) :
    subPt (translatePt t p) (translatePt t q) = subPt p q := by
  simp only [subPt, translatePt, Pt.mk.injEq]
  refine ⟨by ring, by ring, by ring⟩

/-- Helper: Euclidean distance is translation invariant. -/
theorem dist3_translate (t p q : Pt) :
    dist3 (translatePt t p) (translatePt t q) = dist3 p q := by
  unfold dist3 translatePt
  dsimp only
  congr 1
  ring

/-- C5: translating all 21 landmarks by a constant 3-D vector leaves the
extracted feature vector unchanged in all three normalizer variants (wrist
subtraction cancels the translation in the 63 coordinates, the palm size,
and the 5 fingertip distances). -/
theorem c5_translation_invariance (lms : HandLandmarkSet) (t : Pt) :
    ifaceExtractLandmarks (translateLms t lms) = ifaceExtractLandmarks lms ∧
    extract_landmarks (translateLms t lms) = extract_landmarks lms ∧
    trainExtractLandmarks (translateLms t lms) = trainExtractLandmarks lms := by
  have hifc : ifaceExtractLandmarks (translateLms t lms) = ifaceExtractLandmarks lms := by
    simp only [ifaceExtractLandmarks, translateLms, subPt_translate, dist3_translate]
  refine ⟨hifc, ?_, ?_⟩
  · rw [extract_eq_iface (translateLms t lms), extract_eq_iface lms]
    exact hifc
  · rw [extract_eq_train (translateLms t lms), extract_eq_train lms,
      extract_eq_iface (translateLms t lms), extract_eq_iface lms]
    exact hifc

/-- Helper: scaling about the wrist fixes the wrist itself. -/
theorem scalePt_self (s : ℝ) (w : Pt) : scalePt s w w = w := by
  cases w with
  | mk a b c =>
    simp only [scalePt, Pt.mk.injEq]
    refine ⟨by ring, by ring, by ring⟩

/-- Helper: wrist-relative coordinates of a wrist-scaled point are the
original wrist-relative coordinates multiplied by the factor. -/
theorem coords_sub_scale (s : ℝ) (w p : Pt) :
    ptCoords (subPt (scalePt s w p) w) = (ptCoords (subPt p w)).map (fun v => s * v) := by
  simp only [ptCoords, subPt, scalePt, List.map_cons, List.map_nil, List.cons.injEq,
    and_true]
  refine ⟨by ring, by ring, by ring⟩

/-- Helper: distances scale linearly under scaling about the wrist. -/
theorem dist3_scale (s : ℝ) (hs : 0 ≤ s) (w p q : Pt) :
    dist3 (scalePt s w p) (scalePt s w q) = s * dist3 p q := by
  unfold dist3 scalePt
  dsimp only
  have harg :
      (w.x + s * (p.x - w.x) - (w.x + s * (q.x - w.x))) ^ 2 +
        (w.y + s * (p.y - w.y) - (w.y + s * (q.y - w.y))) ^ 2 +
        (w.z + s * (p.z - w.z) - (w.z + s * (q.z - w.z))) ^ 2 =
      s ^ 2 * ((p.x - q.x) ^ 2 + (p.y - q.y) ^ 2 + (p.z - q.z) ^ 2) := by ring
  rw [harg, Real.sqrt_mul (sq_nonneg s), Real.sqrt_sq hs]

/-- Helper: mapping a real function under `List.ofFn` commutes with
mapping the produced list. -/
theorem ofFn_map_real (g : Fin 21 → List ℝ) (f : ℝ → ℝ) :
    (List.ofFn fun i => (g i).map f) = (List.ofFn g).map (List.map f) :=
  (List.map_ofFn g (List.map f)).symm

/-- Helper: the degenerate-input policy — with `palm_size = 0` no division
happens and the output is the raw wrist-relative coordinates followed by
the raw fingertip distances. -/
theorem extract_palm_zero (lms : HandLandmarkSet) (hp : palmSize lms = 0) :
    ifaceExtractLandmarks lms = wristRelative lms ++ rawTipDistances lms := by
  unfold palmSize at hp
  simp only [ifaceExtractLandmarks, wristRelative, rawTipDistances, hp,
    lt_self_iff_false, if_false]

/-- C4 (amended): scaling all landmarks about the wrist by a positive
factor leaves the feature vector unchanged PROVIDED the palm size is
positive; and whenever the palm size is exactly zero the output is the
unscaled wrist-relative coordinates followed by the unscaled
fingertip-to-wrist distances. -/
theorem c4_scale_invariance (lms : HandLandmarkSet) (s : ℝ) (hs : 0 < s) :
    (0 < palmSize lms →
      ifaceExtractLandmarks (scaleAboutWrist s lms) = ifaceExtractLandmarks lms ∧
      extract_landmarks (scaleAboutWrist s lms) = extract_landmarks lms) ∧
    (palmSize lms = 0 →
      ifaceExtractLandmarks lms = wristRelative lms ++ rawTipDistances lms ∧
      extract_landmarks lms = wristRelative lms ++ rawTipDistances lms) := by
  constructor
  · intro hp
    unfold palmSize at hp
    have hsP : 0 < s * dist3 (lms 0) (lms 9) := mul_pos hs hp
    have hdiv : ∀ v : ℝ, s * v / (s * dist3 (lms 0) (lms 9)) = v / dist3 (lms 0) (lms 9) :=
      fun v => mul_div_mul_left v (dist3 (lms 0) (lms 9)) (ne_of_gt hs)
    have hifc : ifaceExtractLandmarks (scaleAboutWrist s lms) =
        ifaceExtractLandmarks lms := by
      simp only [ifaceExtractLandmarks, scaleAboutWrist]
      simp only [dist3_scale s (le_of_lt hs)]
      simp only [scalePt_self]
      simp only [coords_sub_scale]
      simp only [if_pos hp, if_pos hsP]
      rw [ofFn_map_real (fun i => ptCoords (subPt (lms i) (lms 0))) (fun v => s * v),
        ← List.map_flatten, List.map_map]
      simp only [Function.comp_def, hdiv]
    exact ⟨hifc, by rw [extract_eq_iface, extract_eq_iface]; exact hifc⟩
  · intro hp
    have h1 := extract_palm_zero lms hp
    exact ⟨h1, by rw [extract_eq_iface]; exact h1⟩

/-- C4 counterexample: the claim's unconditional scale invariance fails on
a degenerate hand whose palm size is zero but whose landmark 1 is away from
the wrist — scaling by 2 doubles the (undivided) wrist-relative
coordinates, so the feature vectors differ at index 3. -/
theorem c4_counterexample :
    (0:ℝ) < 2 ∧
    ifaceExtractLandmarks (scaleAboutWrist 2 degenerateHand) ≠
      ifaceExtractLandmarks degenerateHand := by
  refine ⟨by norm_num, ?_⟩
  have hp1 : palmSize degenerateHand = 0 := by
    unfold palmSize dist3 degenerateHand
    norm_num [show ¬((9:Fin 21) = 1) from by decide,
      show ¬((0:Fin 21) = 1) from by decide]
  have hp2 : palmSize (scaleAboutWrist 2 degenerateHand) = 0 := by
    unfold palmSize dist3 scaleAboutWrist scalePt degenerateHand
    norm_num [show ¬((9:Fin 21) = 1) from by decide,
      show ¬((0:Fin 21) = 1) from by decide]
  intro heq
  rw [extract_palm_zero _ hp2, extract_palm_zero _ hp1] at heq
  have h3 := congrArg (fun l => l[3]?) heq
  have hL : (wristRelative (scaleAboutWrist 2 degenerateHand) ++
      rawTipDistances (scaleAboutWrist 2 degenerateHand))[3]? = some 2 := by
    simp only [wristRelative, rawTipDistances, List.ofFn_succ, List.ofFn_zero,
      List.flatten_cons, List.flatten_nil, scaleAboutWrist, scalePt, subPt, ptCoords,
      degenerateHand]
    norm_num
  have hR : (wristRelative degenerateHand ++ rawTipDistances degenerateHand)[3]? =
      some 1 := by
    simp only [wristRelative, rawTipDistances, List.ofFn_succ, List.ofFn_zero,
      List.flatten_cons, List.flatten_nil, subPt, ptCoords, degenerateHand]
    norm_num
  dsimp only at h3
  rw [hL, hR] at h3
  simp at h3

/-- Witness for C4's amended statement at a unit-palm hand and factor 2. -/
theorem c4_scale_invariance_witness :
    (0:ℝ) < 2 ∧ 0 < palmSize unitPalmHand ∧
    ifaceExtractLandmarks (scaleAboutWrist 2 unitPalmHand) =
      ifaceExtractLandmarks unitPalmHand := by
  have hpalm : palmSize unitPalmHand = 1 := by
    unfold palmSize dist3 unitPalmHand
    norm_num [show ¬((0:Fin 21) = 9) from by decide, Real.sqrt_one]
  refine ⟨by norm_num, by rw [hpalm]; norm_num, ?_⟩
  exact ((c4_scale_invariance unitPalmHand 2 (by norm_num)).1
    (by rw [hpalm]; norm_num)).1
